import Mathlib

/-!
Verification of the Videotto backend (src/Backend/app.py, src/Backend/video_analyzer.py):
the per-clip crop-window synthesis algorithm, the keyframe validation path, the lenient
JSON parser, the pipeline status state machine, and the re-export endpoint.

The Python code is shallowly embedded: Python floats are modelled as exact rationals,
Python ints as `ℤ`/`ℕ`, `dict`-shaped records as structures, and effectful control flow
(collaborator calls, subprocess exit codes, file creation/removal) as explicit parameters
and explicit operation lists.
-/

namespace Videotto

/-- Python `int()` applied to a nonnegative-or-negative rational: truncation toward zero
(`⌊q⌋` for `q ≥ 0`, `⌈q⌉` for `q < 0`).  This models `int(cropx * orig_width)` in
`app.py`. -/
def pyInt (q : ℚ) : ℤ := if 0 ≤ q then ⌊q⌋ else ⌈q⌉

/-- One keyframe as consumed by the synthesizer: `time` is seconds from the clip start
(`kf.get("time", 0)`), `cropX` the normalized horizontal position
(`kf.get("cropX", 0.5)`).  Both are Python floats, modelled as rationals. -/
structure Keyframe where
  time : ℚ
  cropX : ℚ
  deriving DecidableEq, Repr

/-- Derived constant `target_width = int(orig_height * 9 / 16)` from `extract_clips`
(app.py line 242).  For a nonnegative int `H` the float division and `int()` truncation
agree with natural-number division. -/
def target_width (H : ℕ) : ℕ := H * 9 / 16

/-- Derived constant `max_x = orig_width - target_width` (app.py line 243). -/
def max_x (W H : ℕ) : ℤ := (W : ℤ) - (target_width H : ℤ)

/-- The inner helper `cropx_to_pixels` of `extract_clips` (app.py lines 258-260) and of
`reexport_clip` (lines 479-481):
`max(0, min(int(cropx * orig_width) - target_width // 2, max_x))`. -/
def cropx_to_pixels (W H : ℕ) (cropx : ℚ) : ℤ :=
  max 0 (min (pyInt (cropx * (W : ℚ)) - ((target_width H / 2 : ℕ) : ℤ)) (max_x W H))

/-- The nested conditional ffmpeg crop expression built by `extract_clips` /
`reexport_clip` as a string `if(lt(t,tNext),pos,rest)`, modelled as a syntax tree. -/
inductive CropExpr
  | const (v : ℤ)
  | branch (tNext : ℚ) (pos : ℤ) (rest : CropExpr)
  deriving DecidableEq, Repr

/-- Evaluation of the crop expression at elapsed time `t`, following ffmpeg's semantics
of `if(lt(t,tNext),pos,rest)`. -/
def CropExpr.eval : CropExpr → ℚ → ℤ
  | .const v, _ => v
  | .branch tNext pos rest, t => if t < tNext then pos else rest.eval t

/-- The expression builder of `extract_clips` (app.py lines 265-274) on the sorted
keyframe list: a single keyframe yields the constant `cropx_to_pixels(x0)`; otherwise
the loop starts from the last keyframe's pixel value and, from second-to-last down to
first, wraps `crop_expr = if(lt(t, t_next), pos_curr, crop_expr)`.  The backward loop is
recast as structural recursion producing the identical tree
`branch t1 p0 (branch t2 p1 (... (const p_last)))`.  The empty-list case cannot arise in
the source (the fallback keyframe list is non-empty). -/
def buildCropExpr (pixel : ℚ → ℤ) : List Keyframe → CropExpr
  | [] => .const 0
  | [k] => .const (pixel k.cropX)
  | k :: k2 :: rest => .branch k2.time (pixel k.cropX) (buildCropExpr pixel (k2 :: rest))

/-- The sort key used by `sorted(keyframes, key=lambda k: k.get("time", 0))`. -/
def timeLE (a b : Keyframe) : Prop := a.time ≤ b.time

instance : DecidableRel timeLE := fun a b => inferInstanceAs (Decidable (a.time ≤ b.time))

/-- Python `sorted(keyframes, key=time)` (app.py lines 262 and 477), modelled as a
stable insertion sort by time. -/
def sortKF (kfs : List Keyframe) : List Keyframe := List.insertionSort timeLE kfs

/-- The synthesis path shared by `extract_clips` and `reexport_clip`: sort the keyframes
by time, then build the nested conditional expression with the frame's `cropx_to_pixels`. -/
def synthCropExpr (W H : ℕ) (kfs : List Keyframe) : CropExpr :=
  buildCropExpr (cropx_to_pixels W H) (sortKF kfs)

/-- The per-keyframe pixel formula exactly as the spec states it (spec.md section 4.3):
`pixel(x) = clamp(round(x * W) - floor(Wc/2), 0, maxX)`, with rounding to the nearest
integer.  This is the spec-side definition to be compared with `cropx_to_pixels`. -/
def pixel_spec_round (W H : ℕ) (x : ℚ) : ℤ :=
  max 0 (min (round (x * (W : ℚ)) - ((target_width H / 2 : ℕ) : ℤ)) (max_x W H))

/-- The per-keyframe pixel formula with the product floored instead of rounded:
`clamp(floor(x * W) - floor(Wc/2), 0, maxX)`. -/
def pixel_spec_floor (W H : ℕ) (x : ℚ) : ℤ :=
  max 0 (min (⌊x * (W : ℚ)⌋ - ((target_width H / 2 : ℕ) : ℤ)) (max_x W H))

/-- The centered fallback keyframe `{"time": 0, "cropX": 0.5}` used both by
`analyze_clip_keyframes` (video_analyzer.py line 150) and by the `/reexport` default
(app.py line 438). -/
def centeredKeyframe : Keyframe := ⟨0, 1/2⟩

/-- A keyframe as parsed from the collaborator's JSON before validation:
`float(kf.get("time", 0))` and `float(kf.get("cropX", 0.5))`. -/
structure RawKeyframe where
  time : ℚ
  cropX : ℚ
  deriving DecidableEq, Repr

/-- The clamping step of `analyze_clip_keyframes` (video_analyzer.py lines 131-136):
`time = max(0, min(duration, time))`, `cropX = max(0.1, min(0.9, cropX))`. -/
def clampKeyframe (duration : ℚ) (kf : RawKeyframe) : Keyframe :=
  ⟨max 0 (min duration kf.time), max (1/10) (min (9/10) kf.cropX)⟩

/-- The keyframe-estimation stage `analyze_clip_keyframes` (video_analyzer.py
lines 50-150) with the LLM call and JSON extraction abstracted into its outcome:
`none` models a collaborator failure, an unparsable response, or a response with no
brace span (everything the `except` / fall-through paths catch), `some raws` the parsed
`keyframes` array.  Parsed keyframes are clamped, and if any survive they are sorted by
time and returned; otherwise the single centered keyframe is returned. -/
def analyze_clip_keyframes (duration : ℚ) (llm : Option (List RawKeyframe)) :
    List Keyframe :=
  match llm with
  | some raws =>
    let valid := raws.map (clampKeyframe duration)
    if valid.isEmpty then [centeredKeyframe] else sortKF valid
  | none => [centeredKeyframe]

/-- The keyframe list the `/reexport` handler feeds to synthesis (app.py lines 438 and
477): the caller-supplied list, defaulted to the centered keyframe when the request
body omits `keyframes`, then sorted by time — with no clamping of `time` or `cropX`. -/
def reexportSynthKfs (keyframes? : Option (List Keyframe)) : List Keyframe :=
  sortKF (keyframes?.getD [centeredKeyframe])

/-- The crop expression synthesized by the `/reexport` handler (app.py lines 483-492). -/
def reexportSynthExpr (W H : ℕ) (keyframes? : Option (List Keyframe)) : CropExpr :=
  buildCropExpr (cropx_to_pixels W H) (reexportSynthKfs keyframes?)

/-- One clip candidate of a completed job's result, as stored in the job map. -/
structure ClipCandidate where
  rank : ℕ
  start_time : ℚ
  end_time : ℚ
  video_url : Option String
  keyframes : List Keyframe
  deriving DecidableEq, Repr

/-- The `result` payload of a completed job (`clips_data`): its list of clips. -/
structure ClipsData where
  clips : List ClipCandidate
  deriving DecidableEq, Repr

/-- Job pipeline statuses as written into `jobs[job_id]["status"]`. -/
inductive Status
  | queued
  | downloading
  | transcribing
  | analyzing
  | extracting
  | completed
  | failed
  deriving DecidableEq, Repr

/-- The fields of a `jobs[job_id]` record that the `/reexport` handler reads and
writes. -/
structure JobRecord where
  status : Status
  source_s3_key : Option String
  result : Option ClipsData
  deriving DecidableEq, Repr

/-- HTTP response of the `/reexport` handler: a 404 variant, the 500
`Export failed` variant, or 200 with the new presigned clip URL. -/
inductive ReexportResult
  | notFound
  | exportFailed
  | ok (video_url : String)
  deriving DecidableEq, Repr

/-- External effects of one `/reexport` request: whether the ffmpeg subprocess exits
zero, the presigned URL returned by the S3 upload, and the source video's frame size
read via OpenCV. -/
structure ReexportEnv where
  ffmpegOk : Bool
  uploadUrl : String
  W : ℕ
  H : ℕ
  deriving DecidableEq, Repr

/-- The in-place mutation `clip["video_url"] = ...; clip["keyframes"] = ...` applied to
the first clip whose `rank` matches (the handler's `for c in ...: if c["rank"] ==
clip_rank: clip = c; break` aliases that one dict). -/
def updateFirstClip (clips : List ClipCandidate) (rank : ℕ) (url : String)
    (kfs : List Keyframe) : List ClipCandidate :=
  match clips with
  | [] => []
  | c :: cs =>
    if c.rank == rank then { c with video_url := some url, keyframes := kfs } :: cs
    else c :: updateFirstClip cs rank url kfs

/-- The `/reexport` handler `reexport_clip` (app.py lines 432-528) as a function from
the looked-up job record, requested rank, optional request keyframes and external
effects to the HTTP response plus the job record after the request.  Lookup failures
return 404 and leave the record as it was; a nonzero ffmpeg exit returns 500 before any
mutation; only after a zero exit and an upload is the clip mutated. -/
def reexport_clip (job? : Option JobRecord) (clip_rank : ℕ)
    (keyframes? : Option (List Keyframe)) (env : ReexportEnv) :
    ReexportResult × Option JobRecord :=
  match job? with
  | none => (.notFound, none)
  | some job =>
    match job.source_s3_key, job.result with
    | some _, some res =>
      match res.clips.find? (fun c => c.rank == clip_rank) with
      | none => (.notFound, some job)
      | some _ =>
        if env.ffmpegOk then
          (.ok env.uploadUrl,
            some { job with
              result := some ⟨updateFirstClip res.clips clip_rank env.uploadUrl
                (keyframes?.getD [centeredKeyframe])⟩ })
        else (.exportFailed, some job)
    | _, _ => (.notFound, some job)

/-- A diarized utterance as returned by the transcription collaborator. -/
structure Utterance where
  start : ℚ
  stop : ℚ
  text : String
  speaker : ℕ
  deriving DecidableEq, Repr

/-- Outcome of the transcription collaborator call inside `transcribe_video`:
a raised exception (network error, bad JSON), a response body carrying an `error`
key, or a successful response with its utterance list. -/
inductive DeepgramResult
  | httpError
  | errorBody
  | ok (utterances : List Utterance)
  deriving DecidableEq, Repr

/-- The `transcribing` stage `transcribe_video` (app.py lines 94-145): a raised
exception is caught and degrades to `{"segments": []}`, an `error` response body
likewise, and a successful response maps each utterance to a segment.  The function is
total: no collaborator failure escapes it. -/
def transcribe_video : DeepgramResult → List Utterance
  | .httpError => []
  | .errorBody => []
  | .ok utterances => utterances

/-- External outcomes of one pipeline run `process_video` (app.py lines 308-364):
whether the S3 download succeeds, the transcription collaborator outcome (which cannot
fail the run), whether `analyze_transcript` returns parseable clips, and whether
`extract_clips` succeeds for every clip. -/
structure PipelineEnv where
  downloadOk : Bool
  deepgram : DeepgramResult
  analyzeOk : Bool
  extractOk : Bool

/-- The sequence of `jobs[job_id]["status"]` values observable over one run of
`process_video`, starting from the `queued` status set by the `/analyze` route: each
stage's status is written just before the stage executes, the `except` clause writes
`failed`, and the `transcribing` stage never raises (`transcribe_video` catches its
collaborator's failures). -/
def processTrace (env : PipelineEnv) : List Status :=
  .queued :: .downloading ::
    (if env.downloadOk then
      .transcribing :: .analyzing ::
        (if env.analyzeOk then
          .extracting :: (if env.extractOk then [.completed] else [.failed])
        else [.failed])
    else [.failed])

/-- The canonical forward status sequence of the spec's state machine. -/
def canonicalStatusSeq : List Status :=
  [.queued, .downloading, .transcribing, .analyzing, .extracting, .completed]

/-- Position of a status in the forward order (with `failed` last). -/
def statusIdx : Status → ℕ
  | .queued => 0
  | .downloading => 1
  | .transcribing => 2
  | .analyzing => 3
  | .extracting => 4
  | .completed => 5
  | .failed => 6

/-- One legal observable transition: either entering `failed` from a non-terminal
status, or moving strictly forward between non-`failed` statuses. -/
def StatusStep (a b : Status) : Prop :=
  (b = .failed ∧ a ≠ .completed ∧ a ≠ .failed) ∨ (b ≠ .failed ∧ statusIdx a < statusIdx b)

instance : DecidableRel StatusStep := fun _ _ =>
  inferInstanceAs (Decidable (_ ∨ _))

/-- A creation or removal of a transient local file. -/
inductive FileOp
  | create (f : String)
  | remove (f : String)
  deriving DecidableEq, Repr

/-- Applying one file operation to the set (list) of currently existing files. -/
def applyFileOp (s : List String) : FileOp → List String
  | .create f => s ++ [f]
  | .remove f => s.erase f

/-- The transient local files still existing after a sequence of file operations. -/
def leftoverFiles (ops : List FileOp) : List String := ops.foldl applyFileOp []

/-- File operations of one `/reexport` request (app.py lines 459-528): the source video
is downloaded, ffmpeg writes the output file (on a nonzero exit it may or may not have
written a partial one), `os.remove(temp_output)` runs only after a zero exit and a
successful upload, and the `finally` block removes only the downloaded source video. -/
def reexportFileOps (ffmpegOk wrotePartial uploadOk : Bool) : List FileOp :=
  [.create "temp_video"]
    ++ (if ffmpegOk || wrotePartial then [.create "temp_output"] else [])
    ++ (if ffmpegOk && uploadOk then [.remove "temp_output"] else [])
    ++ [.remove "temp_video"]

/-- File operations of `extract_clips` for one clip (app.py lines 278-295): ffmpeg
writes the clip output file; `os.remove(output_file)` runs only after `upload_to_s3`
returns — an upload exception propagates and skips the removal. -/
def extractClipFileOps (uploadOk : Bool) : List FileOp :=
  [.create "clip_output"] ++ (if uploadOk then [.remove "clip_output"] else [])

/-- File operations of `transcribe_video` (app.py lines 94-145): the extracted audio
file is removed in a `finally` block on every outcome. -/
def transcribeFileOps (_outcome : DeepgramResult) : List FileOp :=
  [.create "audio_path", .remove "audio_path"]

/-- A JSON value as produced by Python `json.loads`, restricted to the subset exercised
here: null, booleans, integers, strings without escape sequences, arrays and objects. -/
inductive Json
  | null
  | bool (b : Bool)
  | num (n : ℤ)
  | str (s : String)
  | arr (elems : List Json)
  | obj (members : List (String × Json))

/-- Whitespace as skipped by the JSON grammar and by Python `str.strip()`. -/
def isWsChar (c : Char) : Bool := c == ' ' || c == '\n' || c == '\t' || c == '\r'

/-- Drop leading JSON whitespace. -/
def skipWs : List Char → List Char
  | [] => []
  | c :: cs => if isWsChar c then skipWs cs else c :: cs

/-- Read the body of a JSON string literal up to its closing quote (no escape
sequences, which the inputs here never use). -/
def parseStrChars : List Char → Option (List Char × List Char)
  | [] => none
  | c :: cs =>
    if c == '"' then some ([], cs)
    else
      match parseStrChars cs with
      | some (s, rest) => some (c :: s, rest)
      | none => none

/-- Decimal digits to a natural number. -/
def digitsToNat (ds : List Char) : ℕ := ds.foldl (fun a c => 10 * a + (c.toNat - 48)) 0

mutual

/-- Recursive-descent JSON value parser modelling strict `json.loads` (in particular it
rejects trailing commas), with a fuel argument bounding recursion depth. -/
def parseVal : ℕ → List Char → Option (Json × List Char)
  | 0, _ => none
  | fuel + 1, cs =>
    match skipWs cs with
    | [] => none
    | '"' :: rest =>
      match parseStrChars rest with
      | some (s, rest2) => some (.str (String.mk s), rest2)
      | none => none
    | 't' :: 'r' :: 'u' :: 'e' :: rest => some (.bool true, rest)
    | 'f' :: 'a' :: 'l' :: 's' :: 'e' :: rest => some (.bool false, rest)
    | 'n' :: 'u' :: 'l' :: 'l' :: rest => some (.null, rest)
    | '[' :: rest =>
      match skipWs rest with
      | ']' :: rest2 => some (.arr [], rest2)
      | rest2 =>
        match parseArrItems fuel rest2 with
        | some (xs, rest3) => some (.arr xs, rest3)
        | none => none
    | '\x7b' :: rest =>
      match skipWs rest with
      | '\x7d' :: rest2 => some (.obj [], rest2)
      | rest2 =>
        match parseObjItems fuel rest2 with
        | some (ms, rest3) => some (.obj ms, rest3)
        | none => none
    | '-' :: rest =>
      match rest.takeWhile Char.isDigit with
      | [] => none
      | ds => some (.num (-(digitsToNat ds : ℤ)), rest.dropWhile Char.isDigit)
    | c :: rest =>
      if c.isDigit then
        some (.num ((digitsToNat ((c :: rest).takeWhile Char.isDigit) : ℕ) : ℤ),
          (c :: rest).dropWhile Char.isDigit)
      else none

/-- Comma-separated array elements up to the closing bracket. -/
def parseArrItems : ℕ → List Char → Option (List Json × List Char)
  | 0, _ => none
  | fuel + 1, cs =>
    match parseVal fuel cs with
    | none => none
    | some (v, rest) =>
      match skipWs rest with
      | ',' :: rest2 =>
        match parseArrItems fuel rest2 with
        | some (xs, rest3) => some (v :: xs, rest3)
        | none => none
      | ']' :: rest2 => some ([v], rest2)
      | _ => none

/-- Comma-separated object members up to the closing brace. -/
def parseObjItems : ℕ → List Char → Option (List (String × Json) × List Char)
  | 0, _ => none
  | fuel + 1, cs =>
    match skipWs cs with
    | '"' :: rest =>
      match parseStrChars rest with
      | none => none
      | some (key, rest2) =>
        match skipWs rest2 with
        | ':' :: rest3 =>
          match parseVal fuel rest3 with
          | none => none
          | some (v, rest4) =>
            match skipWs rest4 with
            | ',' :: rest5 =>
              match parseObjItems fuel rest5 with
              | some (ms, rest6) => some ((String.mk key, v) :: ms, rest6)
              | none => none
            | '\x7d' :: rest5 => some ([(String.mk key, v)], rest5)
            | _ => none
        | _ => none
    | _ => none

end

/-- Python `json.loads` on a character list: parse one value and require only
whitespace to remain. -/
def jsonLoads (cs : List Char) : Option Json :=
  match parseVal (2 * cs.length + 2) cs with
  | some (v, rest) => if (skipWs rest).isEmpty then some v else none
  | none => none

/-- Split a character list around the first occurrence of `pat`, returning the parts
before and after it (`none` when `pat` does not occur), as Python `s.split(pat)[0]` /
`s.split(pat)[1]` for an occurring separator. -/
def splitFirst (pat : List Char) : List Char → Option (List Char × List Char)
  | [] => none
  | c :: cs =>
    if pat.isPrefixOf (c :: cs) then some ([], (c :: cs).drop pat.length)
    else
      match splitFirst pat cs with
      | some (pre, post) => some (c :: pre, post)
      | none => none

/-- The fenced-code-block stripping of `parse_json_safely` (app.py lines 151-154):
when a json fence marker occurs, keep the text between it and the next plain fence;
otherwise when a plain fence occurs, keep the text between the first two fences;
otherwise the text is unchanged. -/
def stripFence (cs : List Char) : List Char :=
  match splitFirst ("```json".toList) cs with
  | some (_, post) =>
    match splitFirst ("```".toList) post with
    | some (pre2, _) => pre2
    | none => post
  | none =>
    match splitFirst ("```".toList) cs with
    | some (_, post) =>
      match splitFirst ("```".toList) post with
      | some (pre2, _) => pre2
      | none => post
    | none => cs

/-- Python `str.strip()`: remove leading and trailing whitespace. -/
def pyStrip (cs : List Char) : List Char :=
  ((cs.dropWhile isWsChar).reverse.dropWhile isWsChar).reverse

/-- The outermost brace span matched by the greedy pattern search in
`parse_json_safely` (app.py line 163): from the first opening brace to the last closing
brace, provided the latter comes after the former. -/
def extractBraceSpan (cs : List Char) : Option (List Char) :=
  match cs.findIdx? (fun c => c == '\x7b'), cs.reverse.findIdx? (fun c => c == '\x7d') with
  | some i, some jr =>
    let j := cs.length - 1 - jr
    if i < j then some ((cs.drop i).take (j - i + 1)) else none
  | _, _ => none

/-- The trailing-comma repair of `parse_json_safely` (app.py line 171): every comma
followed by optional whitespace and a closing bracket or brace is dropped (keeping the
whitespace and the bracket), scanning left to right over non-overlapping matches. -/
def fixCommasGo : ℕ → List Char → List Char
  | 0, cs => cs
  | _ + 1, [] => []
  | fuel + 1, c :: rest =>
    if c == ',' then
      match rest.dropWhile isWsChar with
      | b :: rest2 =>
        if b == '\x7d' || b == ']' then
          rest.takeWhile isWsChar ++ b :: fixCommasGo fuel rest2
        else c :: fixCommasGo fuel rest
      | [] => c :: fixCommasGo fuel rest
    else c :: fixCommasGo fuel rest

/-- The trailing-comma repair at full fuel. -/
def fixCommas (cs : List Char) : List Char := fixCommasGo cs.length cs

/-- The lenient parser `parse_json_safely` (app.py lines 149-177): strip a fenced code
block, strip whitespace, try `json.loads` directly; then extract the outermost brace
span and try again; then remove trailing commas on that span and retry; `none` models
the final raised `JSONDecodeError`. -/
def parse_json_safely (content : String) : Option Json :=
  let cs := pyStrip (stripFence content.toList)
  match jsonLoads cs with
  | some v => some v
  | none =>
    match extractBraceSpan cs with
    | none => none
    | some span =>
      match jsonLoads span with
      | some v => some v
      | none => jsonLoads (fixCommas span)

/-- In a keyframe list strictly sorted by time, the head's time is a lower bound for
every member's time. -/
lemma head_time_le_mem (k : Keyframe) (l : List Keyframe)
    (h : List.Pairwise (fun a b : Keyframe => a.time < b.time) (k :: l)) :
    ∀ x ∈ k :: l, k.time ≤ x.time := by
  intro x hx
  rcases List.mem_cons.mp hx with rfl | hx
  · exact le_refl _
  · exact le_of_lt (List.rel_of_pairwise_cons h hx)

/-- On a strictly time-sorted keyframe list, the built expression evaluates inside the
segment `[t_i, t_{i+1})` to the i-th keyframe's pixel value. -/
lemma buildCropExpr_eval_seg (pixel : ℚ → ℤ) :
    ∀ (kfs : List Keyframe),
      List.Pairwise (fun a b : Keyframe => a.time < b.time) kfs →
      ∀ (i : ℕ) (hi : i + 1 < kfs.length) (t : ℚ),
        (kfs.get ⟨i, Nat.lt_of_succ_lt hi⟩).time ≤ t →
        t < (kfs.get ⟨i + 1, hi⟩).time →
        (buildCropExpr pixel kfs).eval t = pixel (kfs.get ⟨i, Nat.lt_of_succ_lt hi⟩).cropX
  | [] => by intro _ i hi; simp at hi
  | [k] => by
    intro _ i hi
    simp only [List.length_singleton] at hi
    omega
  | k :: k2 :: rest => by
    intro hsort i hi t hle hlt
    cases i with
    | zero =>
      have ht : t < k2.time := hlt
      show (if t < k2.time then pixel k.cropX
        else (buildCropExpr pixel (k2 :: rest)).eval t) = pixel k.cropX
      rw [if_pos ht]
    | succ i' =>
      have hmem : (k2 :: rest).get ⟨i', Nat.lt_of_succ_lt (Nat.lt_of_succ_lt_succ hi)⟩
          ∈ k2 :: rest := List.get_mem _ _ _
      have hk2 : k2.time ≤ t :=
        le_trans (head_time_le_mem k2 rest hsort.of_cons _ hmem) hle
      show (if t < k2.time then pixel k.cropX
        else (buildCropExpr pixel (k2 :: rest)).eval t) = _
      rw [if_neg (not_lt.mpr hk2)]
      exact buildCropExpr_eval_seg pixel (k2 :: rest) hsort.of_cons i'
        (Nat.lt_of_succ_lt_succ hi) t hle hlt

/-- On a strictly time-sorted keyframe list, the built expression evaluates at or after
the last keyframe's time to the last keyframe's pixel value. -/
lemma buildCropExpr_eval_last (pixel : ℚ → ℤ) :
    ∀ (kfs : List Keyframe),
      List.Pairwise (fun a b : Keyframe => a.time < b.time) kfs →
      ∀ (hne : kfs ≠ []) (t : ℚ),
        (kfs.getLast hne).time ≤ t →
        (buildCropExpr pixel kfs).eval t = pixel (kfs.getLast hne).cropX
  | [] => by intro _ hne; exact absurd rfl hne
  | [k] => by
    intro _ _ t _
    rfl
  | k :: k2 :: rest => by
    intro hsort hne t hle
    have hne2 : k2 :: rest ≠ [] := List.cons_ne_nil _ _
    have hlast : (k :: k2 :: rest).getLast hne = (k2 :: rest).getLast hne2 :=
      List.getLast_cons hne2
    have hk2 : k2.time ≤ t := by
      refine le_trans ?_ hle
      rw [hlast]
      exact head_time_le_mem k2 rest hsort.of_cons _ (List.getLast_mem hne2)
    show (if t < k2.time then pixel k.cropX
      else (buildCropExpr pixel (k2 :: rest)).eval t) = _
    rw [if_neg (not_lt.mpr hk2), hlast]
    exact buildCropExpr_eval_last pixel (k2 :: rest) hsort.of_cons hne2 t (hlast ▸ hle)

/-- C1: for every non-empty keyframe list sorted strictly ascending by time, the nested
conditional crop expression built by `extract_clips` evaluates to the piecewise-constant
step function: the i-th keyframe's pixel value on `[t_i, t_{i+1})`, the last keyframe's
pixel value for `t ≥ t_{n-1}`, and the constant `pixel(x0)` at every `t` when `n = 1`. -/
theorem crop_expr_matches_offset (W H : ℕ) (kfs : List Keyframe)
    (hsort : List.Pairwise (fun a b : Keyframe => a.time < b.time) kfs) (hne : kfs ≠ []) :
    (∀ (i : ℕ) (hi : i + 1 < kfs.length) (t : ℚ),
        (kfs.get ⟨i, Nat.lt_of_succ_lt hi⟩).time ≤ t → t < (kfs.get ⟨i + 1, hi⟩).time →
        (synthCropExpr W H kfs).eval t
          = cropx_to_pixels W H (kfs.get ⟨i, Nat.lt_of_succ_lt hi⟩).cropX) ∧
    (∀ t : ℚ, (kfs.getLast hne).time ≤ t →
        (synthCropExpr W H kfs).eval t = cropx_to_pixels W H (kfs.getLast hne).cropX) ∧
    (∀ k : Keyframe, kfs = [k] → ∀ t : ℚ,
        (synthCropExpr W H kfs).eval t = cropx_to_pixels W H k.cropX) := by
  have hid : sortKF kfs = kfs :=
    List.Sorted.insertionSort_eq (List.Pairwise.imp (fun h => le_of_lt h) hsort)
  refine ⟨?_, ?_, ?_⟩
  · intro i hi t h1 h2
    rw [synthCropExpr, hid]
    exact buildCropExpr_eval_seg (cropx_to_pixels W H) kfs hsort i hi t h1 h2
  · intro t h1
    rw [synthCropExpr, hid]
    exact buildCropExpr_eval_last (cropx_to_pixels W H) kfs hsort hne t h1
  · intro k hk t
    subst hk
    rw [synthCropExpr, hid]
    rfl

/-- Witness for C1 at the concrete keyframes `[(0, 0.2), (5, 0.8)]` with a 1920x1080
frame: the expression gives the first pixel value at `t = 3` and the last at `t = 7`. -/
theorem crop_expr_matches_offset_witness :
    (synthCropExpr 1920 1080 [⟨0, 2/10⟩, ⟨5, 8/10⟩]).eval 3
        = cropx_to_pixels 1920 1080 (2/10) ∧
    (synthCropExpr 1920 1080 [⟨0, 2/10⟩, ⟨5, 8/10⟩]).eval 7
        = cropx_to_pixels 1920 1080 (8/10) := by
  have h := crop_expr_matches_offset 1920 1080 [⟨0, 2/10⟩, ⟨5, 8/10⟩]
    (by norm_num [List.pairwise_cons]) (by simp)
  refine ⟨?_, ?_⟩
  · exact h.1 0 (by norm_num) 3 (by norm_num [List.get]) (by norm_num [List.get])
  · exact h.2.1 7 (by norm_num [List.getLast])

/-- C2 counterexample: the code truncates `cropx * orig_width` with Python `int()`,
the spec's formula rounds it to the nearest integer; at `W = 1921`, `H = 1080`,
`x = 0.7` the product is `1344.7`, so the code yields `1041` but the spec's formula
`1042`. -/
theorem cropx_to_pixels_ne_pixel_spec_round :
    cropx_to_pixels 1921 1080 (7/10) = 1041 ∧
    pixel_spec_round 1921 1080 (7/10) = 1042 ∧
    cropx_to_pixels 1921 1080 (7/10) ≠ pixel_spec_round 1921 1080 (7/10) := by
  have h1 : cropx_to_pixels 1921 1080 (7/10) = 1041 := by
    norm_num [cropx_to_pixels, pyInt, target_width, max_x]
  have h2 : pixel_spec_round 1921 1080 (7/10) = 1042 := by
    rw [pixel_spec_round, round_eq]
    norm_num [target_width, max_x]
  exact ⟨h1, h2, by rw [h1, h2]; decide⟩

/-- C2 amended: for every nonnegative normalized position `x`, the synthesis path's
`cropx_to_pixels` equals `clamp(floor(x * W) - floor(Wc/2), 0, maxX)`: the product
`x * W` is floored (Python `int()` truncation), not rounded to the nearest integer. -/
theorem cropx_to_pixels_eq_pixel_spec_floor (W H : ℕ) (x : ℚ) (hx : 0 ≤ x) :
    cropx_to_pixels W H x = pixel_spec_floor W H x := by
  rw [cropx_to_pixels, pixel_spec_floor, pyInt,
    if_pos (mul_nonneg hx (by positivity : (0 : ℚ) ≤ (W : ℚ)))]

/-- Witness for the amended C2 at `W = 1921`, `H = 1080`, `x = 0.7`. -/
theorem cropx_to_pixels_eq_pixel_spec_floor_witness :
    cropx_to_pixels 1921 1080 (7/10) = pixel_spec_floor 1921 1080 (7/10) :=
  cropx_to_pixels_eq_pixel_spec_floor 1921 1080 (7/10) (by norm_num)

/-- C4: the concrete 1920x1080 scenario: `Wc = 607`, `maxX = 1313`,
`pixel(0.2) = 81`, `pixel(0.8) = 1233`, and on the keyframes
`[(t = 0, x = 0.2), (t = 5, x = 0.8)]` the synthesized expression evaluates to `81` for
every `t < 5` and to `1233` for every `t ≥ 5`. -/
theorem concrete_scenario_1920x1080 :
    target_width 1080 = 607 ∧
    max_x 1920 1080 = 1313 ∧
    cropx_to_pixels 1920 1080 (2/10) = 81 ∧
    cropx_to_pixels 1920 1080 (8/10) = 1233 ∧
    (∀ t : ℚ, t < 5 → (synthCropExpr 1920 1080 [⟨0, 2/10⟩, ⟨5, 8/10⟩]).eval t = 81) ∧
    (∀ t : ℚ, 5 ≤ t → (synthCropExpr 1920 1080 [⟨0, 2/10⟩, ⟨5, 8/10⟩]).eval t = 1233) := by
  have hexpr : synthCropExpr 1920 1080 [⟨0, 2/10⟩, ⟨5, 8/10⟩]
      = .branch 5 81 (.const 1233) := by
    norm_num [synthCropExpr, sortKF, buildCropExpr, cropx_to_pixels, pyInt, target_width,
      max_x, List.insertionSort, List.orderedInsert, timeLE]
  refine ⟨by decide, by decide,
    by norm_num [cropx_to_pixels, pyInt, target_width, max_x],
    by norm_num [cropx_to_pixels, pyInt, target_width, max_x], ?_, ?_⟩
  · intro t ht
    rw [hexpr, CropExpr.eval, if_pos ht]
  · intro t ht
    rw [hexpr, CropExpr.eval, if_neg (not_lt.mpr ht)]
    rfl

/-- Witness for C4 at `t = 0` and `t = 5`. -/
theorem concrete_scenario_1920x1080_witness :
    (synthCropExpr 1920 1080 [⟨0, 2/10⟩, ⟨5, 8/10⟩]).eval 0 = 81 ∧
    (synthCropExpr 1920 1080 [⟨0, 2/10⟩, ⟨5, 8/10⟩]).eval 5 = 1233 :=
  ⟨concrete_scenario_1920x1080.2.2.2.2.1 0 (by norm_num),
   concrete_scenario_1920x1080.2.2.2.2.2 5 (by norm_num)⟩

/-- C3 counterexample: the `/reexport` handler feeds caller-supplied keyframes to
synthesis without any clamping — with request keyframes `[(time 0, cropX 1.5)]` the
keyframe reaching synthesis still has `cropX = 1.5`, outside `[0.1, 0.9]`. -/
theorem reexport_feeds_unclamped_keyframes :
    reexportSynthKfs (some [⟨0, 3/2⟩]) = [⟨0, 3/2⟩] ∧ ¬((3/2 : ℚ) ≤ 9/10) := by
  refine ⟨rfl, by norm_num⟩

/-- C3 amended: keyframes produced by the analysis-path validation
(`analyze_clip_keyframes`) are always clamped — `time ∈ [0, duration]` and
`cropX ∈ [0.1, 0.9]` — for every collaborator outcome, including the centered fallback;
the re-export path, by contrast, performs no clamping (see the counterexample). -/
theorem analyze_clip_keyframes_clamped (duration : ℚ) (hd : 0 ≤ duration)
    (llm : Option (List RawKeyframe)) :
    ∀ kf ∈ analyze_clip_keyframes duration llm,
      0 ≤ kf.time ∧ kf.time ≤ duration ∧ (1/10 : ℚ) ≤ kf.cropX ∧ kf.cropX ≤ 9/10 := by
  intro kf hkf
  have hcentered : kf = centeredKeyframe →
      0 ≤ kf.time ∧ kf.time ≤ duration ∧ (1/10 : ℚ) ≤ kf.cropX ∧ kf.cropX ≤ 9/10 := by
    rintro rfl
    exact ⟨le_refl _, hd, by norm_num [centeredKeyframe], by norm_num [centeredKeyframe]⟩
  cases llm with
  | none =>
    rw [analyze_clip_keyframes] at hkf
    exact hcentered (List.mem_singleton.mp hkf)
  | some raws =>
    rw [analyze_clip_keyframes] at hkf
    by_cases he : (raws.map (clampKeyframe duration)).isEmpty
    · rw [if_pos he] at hkf
      exact hcentered (List.mem_singleton.mp hkf)
    · rw [if_neg he] at hkf
      have hmem : kf ∈ raws.map (clampKeyframe duration) :=
        (List.mem_insertionSort timeLE).mp hkf
      obtain ⟨raw, _, hraw⟩ := List.mem_map.mp hmem
      subst hraw
      refine ⟨le_max_left _ _, max_le hd (min_le_left _ _),
        le_max_left _ _, max_le (by norm_num) (min_le_left _ _)⟩

/-- Witness for the amended C3: the out-of-range raw keyframe `(time -3, cropX 2)` with
`duration = 10` is clamped to `(time 0, cropX 0.9)`, which satisfies the bounds. -/
theorem analyze_clip_keyframes_clamped_witness :
    0 ≤ (⟨0, 9/10⟩ : Keyframe).time ∧ (⟨0, 9/10⟩ : Keyframe).time ≤ 10 ∧
      (1/10 : ℚ) ≤ (⟨0, 9/10⟩ : Keyframe).cropX ∧ (⟨0, 9/10⟩ : Keyframe).cropX ≤ 9/10 := by
  refine analyze_clip_keyframes_clamped 10 (by norm_num) (some [⟨-3, 2⟩]) ⟨0, 9/10⟩ ?_
  have hclamp : clampKeyframe 10 ⟨-3, 2⟩ = (⟨0, 9/10⟩ : Keyframe) := by
    rw [clampKeyframe]
    norm_num
  norm_num [analyze_clip_keyframes, hclamp, sortKF, List.insertionSort,
    List.orderedInsert]

/-- C5: every status sequence observable over one pipeline run steps strictly forward
through the canonical sequence, enters `failed` only from a non-terminal status, and
never continues from `completed` or `failed`. -/
theorem process_video_status_monotone (env : PipelineEnv) :
    (processTrace env).Chain' StatusStep ∧
    (∀ s ∈ processTrace env, s ≠ .failed → s ∈ canonicalStatusSeq) ∧
    (∀ s ∈ (processTrace env).dropLast, s ≠ .completed ∧ s ≠ .failed) := by
  obtain ⟨d, dg, a, e⟩ := env
  refine ⟨?_, ?_, ?_⟩ <;> cases d <;> cases a <;> cases e <;>
    simp [processTrace, List.chain'_cons, StatusStep, statusIdx, canonicalStatusSeq,
      List.dropLast]

/-- Witness for C5 on the all-success run. -/
theorem process_video_status_monotone_witness :
    Status.transcribing ∈ canonicalStatusSeq :=
  (process_video_status_monotone ⟨true, .ok [], true, true⟩).2.1 .transcribing
    (by decide) (by decide)

/-- C6: the lenient parser returns the embedded JSON object for clean JSON, fenced
JSON, JSON surrounded by prose, and JSON with one trailing comma before a closing
bracket, and signals its distinct parse error (modelled as `none`) on text with no
recoverable JSON-like span. -/
theorem parse_json_safely_shapes :
    parse_json_safely "\x7b\"clips\": [1, 2]\x7d"
        = some (.obj [("clips", .arr [.num 1, .num 2])]) ∧
    parse_json_safely "```json\n\x7b\"a\": 1\x7d\n```" = some (.obj [("a", .num 1)]) ∧
    parse_json_safely "Here is the JSON: \x7b\"a\": 1\x7d hope it helps"
        = some (.obj [("a", .num 1)]) ∧
    parse_json_safely "\x7b\"a\": [1, 2,]\x7d"
        = some (.obj [("a", .arr [.num 1, .num 2])]) ∧
    parse_json_safely "no json here at all" = none :=
  ⟨rfl, rfl, rfl, rfl, rfl⟩

/-- C7: a transcription-collaborator failure (raised exception or error response)
yields an empty segment list, and the run still reaches `analyzing` right after
`transcribing` — the first four observed statuses contain no `failed`. -/
theorem transcription_failure_not_fatal (env : PipelineEnv)
    (hfail : env.deepgram = .httpError ∨ env.deepgram = .errorBody)
    (hdl : env.downloadOk = true) :
    transcribe_video env.deepgram = [] ∧
    (processTrace env).take 4 = [.queued, .downloading, .transcribing, .analyzing] ∧
    Status.failed ∉ (processTrace env).take 4 := by
  obtain ⟨d, dg, a, e⟩ := env
  simp only at hfail hdl
  subst hdl
  have htr : transcribe_video dg = [] := by
    rcases hfail with h | h <;> rw [h] <;> rfl
  refine ⟨htr, by cases a <;> cases e <;> rfl, ?_⟩
  cases a <;> cases e <;> simp [processTrace]

/-- Witness for C7 on a raised-exception outcome with an otherwise successful run. -/
theorem transcription_failure_not_fatal_witness :
    transcribe_video (PipelineEnv.mk true .httpError true true).deepgram = [] ∧
    (processTrace ⟨true, .httpError, true, true⟩).take 4
      = [.queued, .downloading, .transcribing, .analyzing] ∧
    Status.failed ∉ (processTrace ⟨true, .httpError, true, true⟩).take 4 :=
  transcription_failure_not_fatal ⟨true, .httpError, true, true⟩ (Or.inl rfl) rfl

/-- C8 counterexample: when ffmpeg succeeds but the S3 upload fails during a
re-export, the clip output file is never removed — `os.remove(temp_output)` is only
reached after a successful upload and the `finally` block removes only the source
video. -/
theorem reexport_output_leak_on_upload_failure :
    leftoverFiles (reexportFileOps true true false) = ["temp_output"] ∧
    leftoverFiles (reexportFileOps true true false) ≠ [] :=
  ⟨rfl, by decide⟩

/-- C8 amended: the downloaded source video and the extracted audio file are removed
on every exit path, but per-clip output files are removed only on the fully successful
path — after a zero ffmpeg exit and a successful upload. -/
theorem transient_cleanup_amended (ffmpegOk wrotePartial uploadOk : Bool)
    (o : DeepgramResult) :
    "temp_video" ∉ leftoverFiles (reexportFileOps ffmpegOk wrotePartial uploadOk) ∧
    (ffmpegOk = true → uploadOk = true →
      leftoverFiles (reexportFileOps ffmpegOk wrotePartial uploadOk) = []) ∧
    leftoverFiles (transcribeFileOps o) = [] ∧
    (uploadOk = true → leftoverFiles (extractClipFileOps uploadOk) = []) := by
  cases ffmpegOk <;> cases wrotePartial <;> cases uploadOk <;>
    exact ⟨by decide, by decide, rfl, by decide⟩

/-- Witness for the amended C8 on the fully successful re-export path. -/
theorem transient_cleanup_amended_witness :
    leftoverFiles (reexportFileOps true true true) = [] :=
  (transient_cleanup_amended true true true .httpError).2.1 rfl rfl

/-- C9: a `/reexport` request body without `keyframes` uses the single default
keyframe `(time 0, cropX 0.5)`, so the synthesized crop expression is the constant
centered pixel offset at every `t`. -/
theorem reexport_default_keyframes_centered (W H : ℕ) (t : ℚ) :
    reexportSynthKfs none = [centeredKeyframe] ∧
    (reexportSynthExpr W H none).eval t = cropx_to_pixels W H (1/2) :=
  ⟨rfl, rfl⟩

/-- C10: a nonzero ffmpeg exit during a re-export returns the 500 response and leaves
the job record — including the targeted clip's `video_url` and `keyframes` — exactly as
it was before the request. -/
theorem reexport_transform_failure_leaves_job_unchanged
    (job : JobRecord) (rank : ℕ) (kfs? : Option (List Keyframe)) (env : ReexportEnv)
    (hff : env.ffmpegOk = false)
    (hsrc : ∃ k, job.source_s3_key = some k)
    (hres : ∃ res, job.result = some res ∧
      (res.clips.find? (fun c => c.rank == rank)).isSome = true) :
    reexport_clip (some job) rank kfs? env = (.exportFailed, some job) := by
  obtain ⟨k, hk⟩ := hsrc
  obtain ⟨res, hres1, hres2⟩ := hres
  obtain ⟨c, hc⟩ := Option.isSome_iff_exists.mp hres2
  simp [reexport_clip, hk, hres1, hc, hff]

/-- Witness for C10 on a one-clip job with a failing ffmpeg invocation. -/
theorem reexport_transform_failure_witness :
    reexport_clip
        (some ⟨.completed, some "src", some ⟨[⟨1, 0, 10, none, [centeredKeyframe]⟩]⟩⟩)
        1 none ⟨false, "url", 1920, 1080⟩
      = (.exportFailed,
          some ⟨.completed, some "src", some ⟨[⟨1, 0, 10, none, [centeredKeyframe]⟩]⟩⟩) :=
  reexport_transform_failure_leaves_job_unchanged _ 1 none _ rfl ⟨"src", rfl⟩
    ⟨⟨[⟨1, 0, 10, none, [centeredKeyframe]⟩]⟩, rfl, rfl⟩

end Videotto
